import Mathlib

/-!
Shallow embedding of `src/src/main.rs` (a tiny real-mode x86 simulator) and
verification of its specification.

Modelling conventions:
* Rust `u16` values are `Nat` with wrapping written explicitly as `% 65536`
  at each point where the source performs a wrapping operation or a cast.
  Integer arithmetic follows the release-profile semantics of the compiled
  binary (`-=`, `+=` and `as` casts wrap modulo the type width).
* The 65536-byte memory `Box<[u8; MEM_SIZE]>` is a function `Nat → Nat`
  whose values are bytes (`< 256`); stores mask with `% 256` exactly where
  the source converts to `u8`.
* Indexing past the end of the memory array is a panic in every Rust build
  profile; fallible operations therefore return `Option`.  `push` writes at
  `sp-2` and `sp-2+1` (the index `addr + 1` is computed in `usize`, with no
  wrap back into the array), and `pop` reads at `sp` and `sp + 1`; each
  returns `none` when an index reaches 65536.
* `println!` output is modelled by the companion function `step_diag`,
  which returns the two numeric arguments of the diagnostic format string
  of the unknown-opcode arm, and `none` when nothing is printed.
-/

namespace X86Sim

def MEM_SIZE : Nat := 0x10000

def STACK_START : Nat := 0xFFF0

/-- Registers structure of the simulator (all fields `u16` in the source). -/
structure Registers where
  ax : Nat
  bx : Nat
  cx : Nat
  dx : Nat
  si : Nat
  di : Nat
  sp : Nat
  bp : Nat
  ip : Nat
  flags : Nat
deriving Repr, DecidableEq

/-- CPU state: registers, 64 KiB memory, halted flag. -/
structure X86Cpu where
  regs : Registers
  memory : Nat → Nat
  halted : Bool

/-- X86Cpu::new — all registers zero, sp = STACK_START, zeroed memory, not
halted. -/
def new : X86Cpu :=
  { regs := { ax := 0, bx := 0, cx := 0, dx := 0, si := 0, di := 0,
              sp := STACK_START, bp := 0, ip := 0, flags := 0 },
    memory := fun _ => 0,
    halted := false }

/-- u16 wrapping addition. -/
def wadd (a b : Nat) : Nat := (a + b) % 65536

/-- u16 wrapping subtraction (the inner `% 65536` totalises it; the source
only applies it to in-range `u16` values). -/
def wsub (a b : Nat) : Nat := (a + 65536 - b % 65536) % 65536

/-- Rust `as i8` cast of a `u8` value: reinterpret the byte as a signed
8-bit integer. -/
def as_i8 (b : Nat) : Int :=
  if b % 256 < 128 then (b % 256 : Int) else (b % 256 : Int) - 256

/-- fetch_u8: read the byte at ip, increment ip (u16 wrap). -/
def fetch_u8 (c : X86Cpu) : Nat × X86Cpu :=
  (c.memory c.regs.ip,
   { c with regs := { c.regs with ip := (c.regs.ip + 1) % 65536 } })

/-- fetch_u16: two fetch_u8 calls, little-endian composition
`(high << 8) | low`. -/
def fetch_u16 (c : X86Cpu) : Nat × X86Cpu :=
  let r1 := fetch_u8 c
  let r2 := fetch_u8 r1.2
  ((r2.1 <<< 8) ||| r1.1, r2.2)

/-- push: sp -= 2 (wrapping), store low byte at sp and high byte at sp+1.
The second store indexes `addr + 1` in `usize`; when `addr = 0xFFFF` (that
is, when sp was 1) this indexes past the array and the source panics,
modelled as `none`. -/
def push (c : X86Cpu) (val : Nat) : Option X86Cpu :=
  let addr := (c.regs.sp + 65536 - 2) % 65536
  if addr + 1 < MEM_SIZE then
    some { c with
      regs := { c.regs with sp := addr },
      memory := fun a =>
        if a = addr + 1 then (val >>> 8) % 256
        else if a = addr then val % 256
        else c.memory a }
  else none

/-- pop: load low byte at sp and high byte at sp+1 (little-endian), then
sp += 2 (wrapping).  When `sp = 0xFFFF` the read of `sp + 1` indexes past
the array and the source panics, modelled as `none`. -/
def pop (c : X86Cpu) : Option (Nat × X86Cpu) :=
  let addr := c.regs.sp
  if addr + 1 < MEM_SIZE then
    some (((c.memory (addr + 1)) <<< 8) ||| c.memory addr,
      { c with regs := { c.regs with sp := (addr + 2) % 65536 } })
  else none

/-- set_sz: Zero bit (0x40) iff val = 0, Sign bit (0x80) iff bit 15 of val
is set; `!0x40` and `!0x80` on `u16` are 0xFFBF and 0xFF7F. -/
def set_sz (flags val : Nat) : Nat :=
  let f := if val = 0 then flags ||| 0x40 else flags &&& 0xFFBF
  if val &&& 0x8000 ≠ 0 then f ||| 0x80 else f &&& 0xFF7F

/-- step: one instruction.  The Rust `match` on the opcode literal is
rendered as the equivalent chain of equality tests, in source order.
The `0x75` arm computes `(ip as i16 + offset as i16) as u16`, which in the
compiled binary equals `ip + offset` modulo 65536 with `offset`
sign-extended. -/
def step (c0 : X86Cpu) : Option X86Cpu :=
  if c0.halted then some c0 else
  let f := fetch_u8 c0
  let opcode := f.1
  let c := f.2
  if opcode = 0xB8 then
    let g := fetch_u16 c
    some { g.2 with regs := { g.2.regs with ax := g.1 } }
  else if opcode = 0xBB then
    let g := fetch_u16 c
    some { g.2 with regs := { g.2.regs with bx := g.1 } }
  else if opcode = 0xB9 then
    let g := fetch_u16 c
    some { g.2 with regs := { g.2.regs with cx := g.1 } }
  else if opcode = 0x40 then
    let a2 := wadd c.regs.ax 1
    some { c with regs := { c.regs with ax := a2, flags := set_sz c.regs.flags a2 } }
  else if opcode = 0x48 then
    let a2 := wsub c.regs.ax 1
    some { c with regs := { c.regs with ax := a2, flags := set_sz c.regs.flags a2 } }
  else if opcode = 0x49 then
    let c2 := wsub c.regs.cx 1
    some { c with regs := { c.regs with cx := c2, flags := set_sz c.regs.flags c2 } }
  else if opcode = 0x50 then
    push c c.regs.ax
  else if opcode = 0x58 then
    (pop c).map fun p => { p.2 with regs := { p.2.regs with ax := p.1 } }
  else if opcode = 0xF7 then
    let g := fetch_u8 c
    if g.1 = 0xE1 then
      let res := g.2.regs.ax * g.2.regs.cx
      some { g.2 with regs := { g.2.regs with
        ax := res % 65536, dx := (res >>> 16) % 65536 } }
    else some g.2
  else if opcode = 0x81 then
    let g := fetch_u8 c
    if g.1 = 0xF9 then
      let m := fetch_u16 g.2
      let res := wsub m.2.regs.cx m.1
      some { m.2 with regs := { m.2.regs with flags := set_sz m.2.regs.flags res } }
    else some g.2
  else if opcode = 0x75 then
    let g := fetch_u8 c
    if g.2.regs.flags &&& 0x40 = 0 then
      some { g.2 with regs := { g.2.regs with
        ip := (((g.2.regs.ip : Int) + as_i8 g.1) % 65536).toNat } }
    else some g.2
  else if opcode = 0xF4 then
    some { c with halted := true }
  else
    some { c with halted := true }

/-- The twelve opcode literals of the `match` arms of `step`. -/
def known_opcodes : List Nat :=
  [0xB8, 0xBB, 0xB9, 0x40, 0x48, 0x49, 0x50, 0x58, 0xF7, 0x81, 0x75, 0xF4]

/-- The diagnostic output of one `step`: the default arm prints the opcode
value and `ip.wrapping_sub(1)` at dispatch; every other path prints
nothing. -/
def step_diag (c0 : X86Cpu) : Option (Nat × Nat) :=
  if c0.halted then none else
  let f := fetch_u8 c0
  if f.1 ∈ known_opcodes then none
  else some (f.1, wsub f.2.regs.ip 1)

/-- The byte sequence of load_factorial_program. -/
def factorial_program : List Nat :=
  [0xB8, 0x01, 0x00,
   0xB9, 0x05, 0x00,
   0xF7, 0xE1,
   0x49,
   0x81, 0xF9, 0x01, 0x00,
   0x75, 0xF7,
   0x50,
   0xF4]

/-- load_factorial_program: write the program bytes at addresses 0..16,
the rest of memory unchanged. -/
def load_factorial_program (c : X86Cpu) : X86Cpu :=
  { c with memory := fun a =>
      if a < factorial_program.length then factorial_program.getD a 0
      else c.memory a }

/-- Iterate `step` n times (propagating failure). -/
def stepN : Nat → X86Cpu → Option X86Cpu
  | 0, c => some c
  | n + 1, c => (step c).bind (stepN n)

end X86Sim

namespace X86Sim

/-- Little-endian byte composition: or of a shifted high byte and a low
byte is the weighted sum. -/
theorem hilo_or (hi lo : Nat) (h : lo < 256) :
    (hi <<< 8) ||| lo = 256 * hi + lo := by
  have h2 := Nat.mul_add_lt_is_or (i := 8) (b := lo) (by omega) hi
  rw [Nat.shiftLeft_eq, Nat.mul_comm]
  omega

theorem step_halted (c : X86Cpu) (h : c.halted = true) : step c = some c := by
  simp [step, h]

/-- C7: Halted is terminal — step on a halted state returns the state
unchanged (so halted is never reset). -/
theorem halted_terminal (c : X86Cpu) (h : c.halted = true) : step c = some c :=
  step_halted c h

def haltedCpu : X86Cpu := { new with halted := true }

theorem halted_terminal_witness : step haltedCpu = some haltedCpu :=
  halted_terminal haltedCpu rfl

/-- C9: opcode 0xF7 with second byte 0xE1 — ax gets the low 16 bits and dx
the high 16 bits of the product ax * cx, ip advances by 2, everything else
(bx, cx, si, di, sp, bp, flags, memory, halted) is unchanged. -/
theorem mul_ax_cx_spec (c : X86Cpu) (hh : c.halted = false)
    (hop : c.memory c.regs.ip = 0xF7)
    (hnx : c.memory ((c.regs.ip + 1) % 65536) = 0xE1) :
    step c = some { c with regs := { c.regs with
      ax := (c.regs.ax * c.regs.cx) % 65536,
      dx := ((c.regs.ax * c.regs.cx) >>> 16) % 65536,
      ip := (c.regs.ip + 2) % 65536 } } := by
  simp [step, fetch_u8, hh, hop, hnx]

/-- C4: opcode 0x81 — with selector byte 0xF9 a 2-byte immediate is
fetched, cx - imm (mod 65536) is computed and discarded, only the flags
are updated through set_sz and ip advances by 4; with any other selector
exactly the opcode and selector bytes are consumed (ip advances by 2) and
nothing else changes. -/
theorem opcode_81_asymmetric (c : X86Cpu) (hh : c.halted = false)
    (hop : c.memory c.regs.ip = 0x81) :
    (c.memory ((c.regs.ip + 1) % 65536) = 0xF9 →
      step c = some { c with regs := { c.regs with
        ip := (c.regs.ip + 4) % 65536,
        flags := set_sz c.regs.flags (wsub c.regs.cx
          ((c.memory ((c.regs.ip + 3) % 65536)) <<< 8 |||
            c.memory ((c.regs.ip + 2) % 65536))) } }) ∧
    (c.memory ((c.regs.ip + 1) % 65536) ≠ 0xF9 →
      step c = some { c with regs := { c.regs with
        ip := (c.regs.ip + 2) % 65536 } }) := by
  constructor
  · intro hsel
    simp [step, fetch_u8, fetch_u16, hh, hop, hsel]
  · intro hsel
    simp [step, fetch_u8, hh, hop, hsel]

/-- C5: opcode 0x75 (JNZ) — one operand byte is fetched and interpreted as
a signed 8-bit offset; with the Zero flag (0x40) clear, ip becomes the
post-operand ip plus the sign-extended offset, modulo 65536; with the Zero
flag set only the opcode and operand bytes are consumed and nothing else
changes. -/
theorem jnz_spec (c : X86Cpu) (hh : c.halted = false)
    (hop : c.memory c.regs.ip = 0x75) :
    (c.regs.flags &&& 0x40 = 0 →
      step c = some { c with regs := { c.regs with
        ip := (((((c.regs.ip + 2) % 65536 : Nat) : Int) +
          as_i8 (c.memory ((c.regs.ip + 1) % 65536))) % 65536).toNat } }) ∧
    (c.regs.flags &&& 0x40 ≠ 0 →
      step c = some { c with regs := { c.regs with
        ip := (c.regs.ip + 2) % 65536 } }) := by
  constructor
  · intro hzf
    simp [step, fetch_u8, hh, hop, hzf]
    ring_nf
  · intro hzf
    simp [step, fetch_u8, hh, hop, hzf]

/-- C8: an unrecognized opcode consumes exactly one byte, halts the CPU,
changes nothing else, does not abort (step still returns a state), and the
diagnostic names the opcode value and the address of the opcode byte
itself (ip - 1 at the moment of dispatch). -/
theorem unknown_opcode_spec (c : X86Cpu) (hh : c.halted = false)
    (hip : c.regs.ip < 65536)
    (hop : c.memory c.regs.ip ∉ known_opcodes) :
    step c = some { c with
      regs := { c.regs with ip := (c.regs.ip + 1) % 65536 },
      halted := true } ∧
    step_diag c = some (c.memory c.regs.ip, c.regs.ip) := by
  have hop' := hop
  simp only [known_opcodes, List.mem_cons, List.not_mem_nil, or_false,
    not_or] at hop'
  obtain ⟨h1, h2, h3, h4, h5, h6, h7, h8, h9, h10, h11, h12⟩ := hop'
  constructor
  · simp only [step, fetch_u8, hh, Bool.false_eq_true, if_false]
    rw [if_neg h1, if_neg h2, if_neg h3, if_neg h4, if_neg h5, if_neg h6,
      if_neg h7, if_neg h8, if_neg h9, if_neg h10, if_neg h11, if_neg h12]
  · simp only [step_diag, fetch_u8, hh, Bool.false_eq_true, if_false]
    rw [if_neg hop]
    have : wsub ((c.regs.ip + 1) % 65536) 1 = c.regs.ip := by
      simp only [wsub]
      omega
    rw [this]

theorem testBit_64 (j : Nat) : Nat.testBit 64 j = decide (j = 6) := by
  by_cases h : j = 6
  · subst h; decide
  · rw [show (64 : Nat) = 2 ^ 6 by norm_num,
      Nat.testBit_two_pow_of_ne (fun e => h e.symm), decide_eq_false h]

theorem testBit_128 (j : Nat) : Nat.testBit 128 j = decide (j = 7) := by
  by_cases h : j = 7
  · subst h; decide
  · rw [show (128 : Nat) = 2 ^ 7 by norm_num,
      Nat.testBit_two_pow_of_ne (fun e => h e.symm), decide_eq_false h]

theorem testBit_mask16 (j : Nat) : Nat.testBit 65535 j = decide (j < 16) := by
  rw [show (65535 : Nat) = 2 ^ 16 - 1 by norm_num, Nat.testBit_two_pow_sub_one]

theorem testBit_FFBF (j : Nat) :
    Nat.testBit 65471 j = (decide (j < 16) && !decide (j = 6)) := by
  rw [show (65471 : Nat) = 65535 ^^^ 64 by decide, Nat.testBit_xor,
    testBit_mask16, testBit_64]
  by_cases h6 : j = 6
  · subst h6; decide
  · by_cases h16 : j < 16 <;>
      simp [h6, h16]

theorem testBit_FF7F (j : Nat) :
    Nat.testBit 65407 j = (decide (j < 16) && !decide (j = 7)) := by
  rw [show (65407 : Nat) = 65535 ^^^ 128 by decide, Nat.testBit_xor,
    testBit_mask16, testBit_128]
  by_cases h7 : j = 7
  · subst h7; decide
  · by_cases h16 : j < 16 <;>
      simp [h7, h16]

theorem and_8000_iff (v : Nat) (hv : v < 65536) :
    v &&& 32768 ≠ 0 ↔ 32768 ≤ v := by
  have h := Nat.and_two_pow v 15
  rw [Nat.testBit_to_div_mod] at h
  norm_num at h
  by_cases hb : v / 32768 % 2 = 1 <;> simp [hb] at h <;> omega

/-- C6: set_sz sets the Zero bit (0x40, bit 6) iff v = 0, sets the Sign
bit (0x80, bit 7) iff v >= 0x8000, and leaves every other flag bit
unchanged. -/
theorem set_sz_spec (f v : Nat) (hf : f < 65536) (hv : v < 65536) :
    ((set_sz f v).testBit 6 = decide (v = 0)) ∧
    ((set_sz f v).testBit 7 = decide (0x8000 ≤ v)) ∧
    (∀ i : Nat, i ≠ 6 → i ≠ 7 → (set_sz f v).testBit i = f.testBit i) := by
  have hsign := and_8000_iff v hv
  refine ⟨?_, ?_, ?_⟩
  · simp only [set_sz]
    split_ifs with hsg hz hz
    · subst hz; simp at hsg
    · simp [Nat.testBit_or, Nat.testBit_and, testBit_FFBF, testBit_128,
        decide_eq_false hz]
    · simp [Nat.testBit_or, Nat.testBit_and, testBit_64, testBit_FF7F, hz]
    · simp [Nat.testBit_and, testBit_FFBF, testBit_FF7F,
        decide_eq_false hz]
  · simp only [set_sz]
    split_ifs with hsg hz hz
    · subst hz; simp at hsg
    · simp [Nat.testBit_or, Nat.testBit_and, testBit_FFBF, testBit_128,
        decide_eq_true (hsign.mp hsg)]
    · subst hz
      simp [Nat.testBit_or, Nat.testBit_and, testBit_64, testBit_FF7F]
    · have hnle : ¬ (32768 ≤ v) := fun hle => hsg (hsign.mpr hle)
      simp [Nat.testBit_and, testBit_FFBF, testBit_FF7F,
        decide_eq_false hnle]
  · intro i h6 h7
    have hd6 : decide (i = 6) = false := decide_eq_false h6
    have hd7 : decide (i = 7) = false := decide_eq_false h7
    by_cases h16 : i < 16
    · simp only [set_sz]
      split_ifs <;>
        simp [Nat.testBit_or, Nat.testBit_and, testBit_64, testBit_128,
          testBit_FFBF, testBit_FF7F, hd6, hd7, decide_eq_true h16]
    · have h2 : (65536 : Nat) ≤ 2 ^ i := by
        calc (65536 : Nat) = 2 ^ 16 := by norm_num
          _ ≤ 2 ^ i := Nat.pow_le_pow_right (by norm_num) (by omega)
      have hfb : f.testBit i = false :=
        Nat.testBit_lt_two_pow (lt_of_lt_of_le hf h2)
      simp only [set_sz]
      split_ifs <;>
        simp [Nat.testBit_or, Nat.testBit_and, testBit_64, testBit_128,
          testBit_FFBF, testBit_FF7F, hd6, hd7, h16, hfb]

/-- C10: one step never modifies si, di or bp; bx changes only under
opcode 0xBB; memory is written only under opcode 0x50. -/
theorem step_frame (c c' : X86Cpu) (h : step c = some c') :
    c'.regs.si = c.regs.si ∧ c'.regs.di = c.regs.di ∧ c'.regs.bp = c.regs.bp ∧
    (c.memory c.regs.ip ≠ 0xBB → c'.regs.bx = c.regs.bx) ∧
    (c.memory c.regs.ip ≠ 0x50 → ∀ a, c'.memory a = c.memory a) := by
  by_cases hh : c.halted = true
  · rw [step_halted c hh] at h
    obtain rfl := Option.some.inj h
    exact ⟨rfl, rfl, rfl, fun _ => rfl, fun _ _ => rfl⟩
  have hh' : c.halted = false := by revert hh; cases c.halted <;> simp
  simp only [step, fetch_u8, hh', Bool.false_eq_true, if_false] at h
  by_cases h1 : c.memory c.regs.ip = 0xB8
  · rw [if_pos h1] at h
    obtain rfl := Option.some.inj h
    exact ⟨rfl, rfl, rfl, fun _ => rfl, fun _ _ => rfl⟩
  rw [if_neg h1] at h
  by_cases h2 : c.memory c.regs.ip = 0xBB
  · rw [if_pos h2] at h
    obtain rfl := Option.some.inj h
    exact ⟨rfl, rfl, rfl, fun hbx => absurd h2 hbx, fun _ _ => rfl⟩
  rw [if_neg h2] at h
  by_cases h3 : c.memory c.regs.ip = 0xB9
  · rw [if_pos h3] at h
    obtain rfl := Option.some.inj h
    exact ⟨rfl, rfl, rfl, fun _ => rfl, fun _ _ => rfl⟩
  rw [if_neg h3] at h
  by_cases h4 : c.memory c.regs.ip = 0x40
  · rw [if_pos h4] at h
    obtain rfl := Option.some.inj h
    exact ⟨rfl, rfl, rfl, fun _ => rfl, fun _ _ => rfl⟩
  rw [if_neg h4] at h
  by_cases h5 : c.memory c.regs.ip = 0x48
  · rw [if_pos h5] at h
    obtain rfl := Option.some.inj h
    exact ⟨rfl, rfl, rfl, fun _ => rfl, fun _ _ => rfl⟩
  rw [if_neg h5] at h
  by_cases h6 : c.memory c.regs.ip = 0x49
  · rw [if_pos h6] at h
    obtain rfl := Option.some.inj h
    exact ⟨rfl, rfl, rfl, fun _ => rfl, fun _ _ => rfl⟩
  rw [if_neg h6] at h
  by_cases h7 : c.memory c.regs.ip = 0x50
  · rw [if_pos h7] at h
    simp only [push] at h
    split_ifs at h
    obtain rfl := Option.some.inj h
    exact ⟨rfl, rfl, rfl, fun _ => rfl, fun hm => absurd h7 hm⟩
  rw [if_neg h7] at h
  by_cases h8 : c.memory c.regs.ip = 0x58
  · rw [if_pos h8] at h
    simp only [pop] at h
    split_ifs at h
    · simp only [Option.map_some'] at h
      obtain rfl := Option.some.inj h
      exact ⟨rfl, rfl, rfl, fun _ => rfl, fun _ _ => rfl⟩
    · simp only [Option.map_none'] at h
      exact Option.noConfusion h
  rw [if_neg h8] at h
  by_cases h9 : c.memory c.regs.ip = 0xF7
  · rw [if_pos h9] at h
    split_ifs at h
    · obtain rfl := Option.some.inj h
      exact ⟨rfl, rfl, rfl, fun _ => rfl, fun _ _ => rfl⟩
    · obtain rfl := Option.some.inj h
      exact ⟨rfl, rfl, rfl, fun _ => rfl, fun _ _ => rfl⟩
  rw [if_neg h9] at h
  by_cases h10 : c.memory c.regs.ip = 0x81
  · rw [if_pos h10] at h
    split_ifs at h
    · obtain rfl := Option.some.inj h
      exact ⟨rfl, rfl, rfl, fun _ => rfl, fun _ _ => rfl⟩
    · obtain rfl := Option.some.inj h
      exact ⟨rfl, rfl, rfl, fun _ => rfl, fun _ _ => rfl⟩
  rw [if_neg h10] at h
  by_cases h11 : c.memory c.regs.ip = 0x75
  · rw [if_pos h11] at h
    split_ifs at h
    · obtain rfl := Option.some.inj h
      exact ⟨rfl, rfl, rfl, fun _ => rfl, fun _ _ => rfl⟩
    · obtain rfl := Option.some.inj h
      exact ⟨rfl, rfl, rfl, fun _ => rfl, fun _ _ => rfl⟩
  rw [if_neg h11] at h
  by_cases h12 : c.memory c.regs.ip = 0xF4
  · rw [if_pos h12] at h
    obtain rfl := Option.some.inj h
    exact ⟨rfl, rfl, rfl, fun _ => rfl, fun _ _ => rfl⟩
  rw [if_neg h12] at h
  obtain rfl := Option.some.inj h
  exact ⟨rfl, rfl, rfl, fun _ => rfl, fun _ _ => rfl⟩

def cpuSp1 : X86Cpu := { new with regs := { new.regs with sp := 1 } }

/-- C2 counterexample: with sp = 1, push(0) followed by pop does not
return 0 with sp restored — the push itself fails (its second store
indexes byte 0x10000, past the end of memory). -/
theorem push_pop_roundtrip_cex :
    ¬ ((push cpuSp1 0).bind (fun c2 => (pop c2).map (fun p => (p.1, p.2.regs.sp)))
        = some (0, 1)) := by
  decide

/-- C2 (amended): for every 16-bit v and every starting sp other than 1,
pop immediately after push(v) returns v and restores sp. -/
theorem push_pop_roundtrip (c : X86Cpu) (v : Nat) (hv : v < 65536)
    (hsp : c.regs.sp < 65536) (hne : c.regs.sp ≠ 1) :
    (push c v).bind (fun c2 => (pop c2).map (fun p => (p.1, p.2.regs.sp)))
      = some (v, c.regs.sp) := by
  have hlt : (c.regs.sp + 65534) % 65536 + 1 < MEM_SIZE := by
    simp only [MEM_SIZE]; omega
  simp [push, pop, hlt]
  constructor
  · have hs : v >>> 8 % 256 = v >>> 8 := by
      rw [Nat.shiftRight_eq_div_pow]
      exact Nat.mod_eq_of_lt (by omega)
    rw [hs, hilo_or _ _ (by omega), Nat.shiftRight_eq_div_pow]
    norm_num
    omega
  · omega

def cpuSpMax : X86Cpu := { new with regs := { new.regs with sp := 0xFFFF } }

/-- C3 counterexample: pop in a state with sp = 0xFFFF fails — it reads
the byte at index 0x10000, outside the 65536-byte buffer. -/
theorem pop_spmax_cex : pop cpuSpMax = none := rfl

/-- C3 (amended): fetch_u8 and fetch_u16 always succeed with ip wrapping
modulo 65536; push succeeds exactly when sp is not 1, pop exactly when sp
is not 0xFFFF (those two cases index byte 0x10000, past the buffer); the
sp updates wrap modulo 65536. -/
theorem primitives_totality (c : X86Cpu) (v : Nat) (hsp : c.regs.sp < 65536) :
    ((push c v).isSome ↔ c.regs.sp ≠ 1) ∧
    ((pop c).isSome ↔ c.regs.sp ≠ 0xFFFF) ∧
    (fetch_u8 c).2.regs.ip = (c.regs.ip + 1) % 65536 ∧
    (fetch_u16 c).2.regs.ip = (c.regs.ip + 2) % 65536 := by
  refine ⟨?_, ?_, rfl, ?_⟩
  · simp only [push, MEM_SIZE]
    split_ifs with hg
    · simpa using by omega
    · simp only [Option.isSome_none, Bool.false_eq_true, false_iff, Decidable.not_not]
      omega
  · simp only [pop, MEM_SIZE]
    split_ifs with hg
    · simpa using by omega
    · simp only [Option.isSome_none, Bool.false_eq_true, false_iff, Decidable.not_not]
      omega
  · simp only [fetch_u16, fetch_u8]
    omega

/-- C1: loading the factorial program at 0 into a fresh CPU and stepping
at most 50 times reaches the halted state with 120 = 5! on top of the
stack (pop returns 120). -/
theorem factorial_end_to_end :
    (stepN 50 (load_factorial_program new)).map
      (fun c => (c.halted, (pop c).map Prod.fst)) = some (true, some 120) := by
  decide

theorem push_pop_roundtrip_witness :
    (push new 300).bind (fun c2 => (pop c2).map (fun p => (p.1, p.2.regs.sp)))
      = some (300, new.regs.sp) :=
  push_pop_roundtrip new 300 (by decide) (by decide) (by decide)

theorem primitives_totality_witness :
    ((push new 7).isSome ↔ new.regs.sp ≠ 1) ∧
    ((pop new).isSome ↔ new.regs.sp ≠ 0xFFFF) ∧
    (fetch_u8 new).2.regs.ip = (new.regs.ip + 1) % 65536 ∧
    (fetch_u16 new).2.regs.ip = (new.regs.ip + 2) % 65536 :=
  primitives_totality new 7 (by decide)

def c81 : X86Cpu :=
  { new with memory := fun a => if a = 0 then 0x81 else if a = 1 then 0xF9 else 0 }

theorem opcode_81_asymmetric_witness :
    (c81.memory ((c81.regs.ip + 1) % 65536) = 0xF9 →
      step c81 = some { c81 with regs := { c81.regs with
        ip := (c81.regs.ip + 4) % 65536,
        flags := set_sz c81.regs.flags (wsub c81.regs.cx
          ((c81.memory ((c81.regs.ip + 3) % 65536)) <<< 8 |||
            c81.memory ((c81.regs.ip + 2) % 65536))) } }) ∧
    (c81.memory ((c81.regs.ip + 1) % 65536) ≠ 0xF9 →
      step c81 = some { c81 with regs := { c81.regs with
        ip := (c81.regs.ip + 2) % 65536 } }) :=
  opcode_81_asymmetric c81 rfl rfl

def c75 : X86Cpu :=
  { new with memory := fun a => if a = 0 then 0x75 else if a = 1 then 0xF7 else 0 }

theorem jnz_spec_witness :
    (c75.regs.flags &&& 0x40 = 0 →
      step c75 = some { c75 with regs := { c75.regs with
        ip := (((((c75.regs.ip + 2) % 65536 : Nat) : Int) +
          as_i8 (c75.memory ((c75.regs.ip + 1) % 65536))) % 65536).toNat } }) ∧
    (c75.regs.flags &&& 0x40 ≠ 0 →
      step c75 = some { c75 with regs := { c75.regs with
        ip := (c75.regs.ip + 2) % 65536 } }) :=
  jnz_spec c75 rfl rfl

theorem set_sz_spec_witness :
    ((set_sz 4660 40000).testBit 6 = decide (40000 = 0)) ∧
    ((set_sz 4660 40000).testBit 7 = decide (0x8000 ≤ 40000)) ∧
    (∀ i : Nat, i ≠ 6 → i ≠ 7 →
      (set_sz 4660 40000).testBit i = (4660 : Nat).testBit i) :=
  set_sz_spec 4660 40000 (by decide) (by decide)

def cFF : X86Cpu := { new with memory := fun _ => 0xFF }

theorem unknown_opcode_spec_witness :
    step cFF = some { cFF with
      regs := { cFF.regs with ip := (cFF.regs.ip + 1) % 65536 },
      halted := true } ∧
    step_diag cFF = some (cFF.memory cFF.regs.ip, cFF.regs.ip) :=
  unknown_opcode_spec cFF rfl (by decide) (by decide)

def cF7 : X86Cpu :=
  { new with memory := fun a => if a = 0 then 0xF7 else if a = 1 then 0xE1 else 0 }

theorem mul_ax_cx_spec_witness :
    step cF7 = some { cF7 with regs := { cF7.regs with
      ax := (cF7.regs.ax * cF7.regs.cx) % 65536,
      dx := ((cF7.regs.ax * cF7.regs.cx) >>> 16) % 65536,
      ip := (cF7.regs.ip + 2) % 65536 } } :=
  mul_ax_cx_spec cF7 rfl rfl (by decide)

def cAfter : X86Cpu :=
  { new with regs := { new.regs with ip := 1 }, halted := true }

theorem step_frame_witness :
    cAfter.regs.si = new.regs.si ∧ cAfter.regs.di = new.regs.di ∧
    cAfter.regs.bp = new.regs.bp ∧
    (new.memory new.regs.ip ≠ 0xBB → cAfter.regs.bx = new.regs.bx) ∧
    (new.memory new.regs.ip ≠ 0x50 → ∀ a, cAfter.memory a = new.memory a) :=
  step_frame new cAfter rfl

end X86Sim
